import Mathlib

/-!
Verification of the lifecycle worker state machine (package `lifecycle`).

The Go source (worker.go, state.go, errors.go, hook.go) is shallowly embedded
here: the mutable `Worker` fields guarded by the mutex become the record
`WorkerSt`; every atomic step performed while holding the lock (a guarded
`transition`, `unblockWaiters` protected by `sync.Once`, `close(c.ready)`,
observer registration) becomes a pure function on `WorkerSt`, and a concurrent
execution becomes a list of such atomic actions (`Act`) applied in scheduling
order.  Hook results are parameters, since hooks are external code.  Channel
sends to observers are logged in the `sent` field, channel closes in `closed`.
-/

set_option autoImplicit false

namespace Lifecycle

/-- The lifecycle states, from state.go.  `Initial` is the zero value. -/
inductive State where
  | Initial
  | Starting
  | Started
  | ShuttingDown
  | Terminating
  | Stopped
  | Error
deriving DecidableEq, Repr

/-- Action taken on a signal, from state.go.  `Undefined` is the zero value. -/
inductive Action where
  | Undefined
  | DoNothing
  | Shutdown
  | Terminate
deriving DecidableEq, Repr

/-- Go `context.Context` values, kept abstract up to identity: the background
context and contexts derived via `context.WithTimeout`. -/
inductive Ctx where
  | background
  | withTimeout (parent : Ctx) (timeout : Nat)
deriving DecidableEq, Repr

/-- The error values that circulate in the worker, from errors.go: an error
wrapping `errInvalidState` (built by `transition` via `fmt.Errorf`, recording
the attempted edge), an error wrapping `errInterrupted`, and opaque other
errors (hook errors), distinguished by an index. -/
inductive Err where
  | invalidState (src : State) (tgt : State)
  | interrupted
  | hookErr (n : Nat)
deriving DecidableEq, Repr

/-- `IsInvalidState` (errors.go): `errors.Is(err, errInvalidState)`. -/
def IsInvalidState : Err → Bool
  | .invalidState _ _ => true
  | _ => false

/-- `IsInterrupted` (errors.go): `errors.Is(err, errInterrupted)`. -/
def IsInterrupted : Err → Bool
  | .interrupted => true
  | _ => false

/-- The `Event` struct delivered to observers (worker.go).  A `none` field
models a nil Go field (the zero value). -/
structure Event where
  Context : Option Ctx
  Error : Option Err
  From : State
  To : State
deriving DecidableEq, Repr

/-- The lock-protected mutable state of a `Worker`, together with a log of the
observable channel operations.  `observers` is the registered observer channel
list (channels named by numbers), `sent` the sequence of (observer, event)
channel sends, `closed` the sequence of observer channel closes,
`readyCloseCount` the number of times `close(c.ready)` ran, `doneCloseCount`
the number of times `close(c.done)` ran, and `unlockOnceDone` the state of the
`sync.Once` guarding it. -/
structure WorkerSt where
  state : State
  observers : List Nat
  sent : List (Nat × Event)
  closed : List Nat
  readyCloseCount : Nat
  doneCloseCount : Nat
  unlockOnceDone : Bool
deriving DecidableEq, Repr

/-- The dynamic state of a freshly constructed worker: state `Initial`, no
observers, fresh (unclosed) `ready` and `done` channels. -/
def initWorkerSt : WorkerSt :=
  { state := State.Initial
    observers := []
    sent := []
    closed := []
    readyCloseCount := 0
    doneCloseCount := 0
    unlockOnceDone := false }

/-- `Worker.isStateOneOf` (worker.go): whether the current state is in the
given list. -/
def isStateOneOf (s : WorkerSt) (states : List State) : Bool :=
  states.any (fun state => s.state == state)

/-- The observer notification loop inside `Worker.transition` (worker.go):
send the event to each observer in registration order, and close each
observer's channel right after its send when the transition is final. -/
def notifyLoop (obs : List Nat) (event : Event) (isFinalState : Bool)
    (sent : List (Nat × Event)) (closed : List Nat) :
    List (Nat × Event) × List Nat :=
  match obs with
  | [] => (sent, closed)
  | o :: rest =>
      notifyLoop rest event isFinalState (sent ++ [(o, event)])
        (if isFinalState then closed ++ [o] else closed)

/-- `Worker.transition` (worker.go): under the lock, fail with an
Invalid-State error when a non-empty allowed-source list does not contain the
current state; otherwise set the state, notify every observer with the event
`{From := current, To := to, Error := cause}` (the Go code leaves
`Event.Context` at its nil zero value), closing observer channels and clearing
the registry when the transition is final (`cause != nil` or target `Stopped`
or `Error`).  Returns the previous state or the error. -/
def transition (s : WorkerSt) (_ctx : Option Ctx) (toState : State)
    (allowedFromStates : List State) (cause : Option Err) :
    WorkerSt × Except Err State :=
  let current := s.state
  if 0 < allowedFromStates.length ∧ isStateOneOf s allowedFromStates = false then
    (s, Except.error (Err.invalidState current toState))
  else
    let event : Event :=
      { Context := none, Error := cause, From := current, To := toState }
    let isFinalState : Bool :=
      cause.isSome || toState == State.Stopped || toState == State.Error
    let res := notifyLoop s.observers event isFinalState s.sent s.closed
    ({ s with
        state := toState
        sent := res.1
        closed := res.2
        observers := if isFinalState then [] else s.observers },
      Except.ok current)

/-- `Worker.unblockWaiters` (worker.go): close the done channel, guarded by
`c.unlockOnce` so a second call is a no-op. -/
def unblockWaiters (s : WorkerSt) : WorkerSt :=
  if s.unlockOnceDone then s
  else { s with unlockOnceDone := true, doneCloseCount := s.doneCloseCount + 1 }

/-- The single `close(c.ready)` statement in `Worker.StartBackgroundCtx`
(worker.go).  A Go channel may be closed at most once, so we count closes. -/
def closeReady (s : WorkerSt) : WorkerSt :=
  { s with readyCloseCount := s.readyCloseCount + 1 }

/-- `Worker.Observe` (worker.go): append a non-nil channel to the registry. -/
def Observe (s : WorkerSt) (ch : Option Nat) : WorkerSt :=
  match ch with
  | none => s
  | some c => { s with observers := s.observers ++ [c] }

/-- `Worker.Unobserve` (worker.go): remove the first occurrence of the channel
from the registry. -/
def Unobserve (s : WorkerSt) (ch : Nat) : WorkerSt :=
  { s with observers := s.observers.eraseP (fun o => o == ch) }

/-- The alphabet of atomic (lock-protected) actions the worker code can
perform on the shared state.  Each `transition` action corresponds to one of
the call sites of `Worker.transition` in worker.go:
`startGate` in `StartBackgroundCtx`, `startedTr` at the end of
`StartBackgroundCtx`, `shutdownTr` and `stopFromShutdown` in `ShutdownCtx`,
`terminateTr` and `stopFromTerminate` in `TerminateCtx`, `stopFromRunner` in
the work-runner goroutine, and `errorTr` in `handleError`. -/
inductive Act where
  | startGate
  | startedTr
  | shutdownTr
  | terminateTr
  | stopFromShutdown
  | stopFromTerminate
  | stopFromRunner
  | errorTr (cause : Err)
  | unblock
  | fireReady
  | observe (ch : Nat)
  | unobserve (ch : Nat)
deriving DecidableEq, Repr

/-- Effect of one atomic action on the shared worker state. -/
def step (s : WorkerSt) (a : Act) : WorkerSt :=
  match a with
  | .startGate =>
      (transition s none State.Starting [State.Initial] none).1
  | .startedTr =>
      (transition s none State.Started [State.Starting] none).1
  | .shutdownTr =>
      (transition s none State.ShuttingDown [State.Starting, State.Started] none).1
  | .terminateTr =>
      (transition s none State.Terminating
        [State.Starting, State.Started, State.ShuttingDown] none).1
  | .stopFromShutdown =>
      (transition s none State.Stopped [State.ShuttingDown] none).1
  | .stopFromTerminate =>
      (transition s none State.Stopped [State.Terminating] none).1
  | .stopFromRunner =>
      (transition s none State.Stopped
        [State.Starting, State.Started, State.ShuttingDown, State.Terminating] none).1
  | .errorTr cause =>
      (transition s none State.Error
        [State.Starting, State.Started, State.ShuttingDown, State.Terminating]
        (some cause)).1
  | .unblock => unblockWaiters s
  | .fireReady => closeReady s
  | .observe ch => Observe s (some ch)
  | .unobserve ch => Unobserve s ch

/-- A scheduled execution: apply the atomic actions in order. -/
def runActs (s : WorkerSt) (l : List Act) : WorkerSt :=
  l.foldl step s

/-! ### Basic lemmas about `transition` and `notifyLoop` -/

theorem notifyLoop_eq (obs : List Nat) (event : Event) (fin : Bool)
    (sent : List (Nat × Event)) (closed : List Nat) :
    notifyLoop obs event fin sent closed =
      (sent ++ obs.map (fun o => (o, event)),
        closed ++ (if fin then obs else [])) := by
  induction obs generalizing sent closed with
  | nil => simp [notifyLoop]
  | cons o rest ih =>
      cases fin <;> simp [notifyLoop, ih]

theorem transition_fail {s : WorkerSt} {ctx : Option Ctx} {toState : State}
    {allowed : List State} {cause : Option Err}
    (h1 : 0 < allowed.length) (h2 : isStateOneOf s allowed = false) :
    transition s ctx toState allowed cause =
      (s, Except.error (Err.invalidState s.state toState)) := by
  unfold transition
  rw [if_pos ⟨h1, h2⟩]

theorem transition_ok {s : WorkerSt} {ctx : Option Ctx} {toState : State}
    {allowed : List State} {cause : Option Err}
    (h : ¬(0 < allowed.length ∧ isStateOneOf s allowed = false)) :
    transition s ctx toState allowed cause =
      ({ s with
          state := toState
          sent := s.sent ++ s.observers.map
            (fun o => (o, { Context := none, Error := cause,
                            From := s.state, To := toState }))
          closed := s.closed ++
            (if (cause.isSome || toState == State.Stopped ||
                  toState == State.Error) then s.observers else [])
          observers :=
            if (cause.isSome || toState == State.Stopped ||
                toState == State.Error) then [] else s.observers },
        Except.ok s.state) := by
  simp only [transition, if_neg h, notifyLoop_eq]

theorem transition_state_eq (s : WorkerSt) (ctx : Option Ctx) (toState : State)
    (allowed : List State) (cause : Option Err) :
    ((transition s ctx toState allowed cause).1).state =
      if 0 < allowed.length ∧ isStateOneOf s allowed = false then s.state
      else toState := by
  by_cases h : 0 < allowed.length ∧ isStateOneOf s allowed = false
  · rw [transition_fail h.1 h.2, if_pos h]
  · rw [transition_ok h, if_neg h]

theorem transition_counts (s : WorkerSt) (ctx : Option Ctx) (toState : State)
    (allowed : List State) (cause : Option Err) :
    ((transition s ctx toState allowed cause).1).doneCloseCount = s.doneCloseCount ∧
    ((transition s ctx toState allowed cause).1).unlockOnceDone = s.unlockOnceDone ∧
    ((transition s ctx toState allowed cause).1).readyCloseCount = s.readyCloseCount := by
  by_cases h : 0 < allowed.length ∧ isStateOneOf s allowed = false
  · rw [transition_fail h.1 h.2]
    exact ⟨rfl, rfl, rfl⟩
  · rw [transition_ok h]
    exact ⟨rfl, rfl, rfl⟩

theorem isStateOneOf_iff (s : WorkerSt) (l : List State) :
    isStateOneOf s l = true ↔ s.state ∈ l := by
  simp [isStateOneOf]

/-! ### Invariants over arbitrary schedules of atomic actions -/

/-- The `sync.Once` accounting: the number of closes of the done channel is 0
before the once fired and 1 after. -/
def OnceOk (s : WorkerSt) : Prop :=
  s.doneCloseCount = (if s.unlockOnceDone then 1 else 0)

theorem onceOk_init : OnceOk initWorkerSt := by
  simp [OnceOk, initWorkerSt]

theorem onceOk_step {s : WorkerSt} (a : Act) (h : OnceOk s) : OnceOk (step s a) := by
  cases a <;>
    simp_all [OnceOk, step, unblockWaiters, closeReady, Observe, Unobserve,
      transition_counts] <;>
    split <;> simp_all

theorem onceOk_runActs {s : WorkerSt} (l : List Act) (h : OnceOk s) :
    OnceOk (runActs s l) := by
  induction l generalizing s with
  | nil => exact h
  | cons a rest ih => exact ih (onceOk_step a h)

theorem doneCloseCount_le_one {s : WorkerSt} (h : OnceOk s) :
    s.doneCloseCount ≤ 1 := by
  rw [h]
  split <;> simp

theorem step_state_of_terminal {s : WorkerSt} (a : Act)
    (h : s.state = State.Stopped ∨ s.state = State.Error) :
    (step s a).state = s.state := by
  have hone : ∀ l : List State, State.Stopped ∉ l → State.Error ∉ l →
      isStateOneOf s l = false := by
    intro l h1 h2
    rcases h with h | h <;>
      · rw [← Bool.not_eq_true, isStateOneOf_iff, h]
        simp_all
  cases a
  case unblock => simp only [step, unblockWaiters]; split <;> rfl
  case fireReady => rfl
  case observe ch => rfl
  case unobserve ch => rfl
  all_goals
    simp only [step, transition_state_eq]
    rw [if_pos ⟨by decide, hone _ (by decide) (by decide)⟩]

theorem runActs_state_of_terminal {s : WorkerSt} (l : List Act)
    (h : s.state = State.Stopped ∨ s.state = State.Error) :
    (runActs s l).state = s.state := by
  induction l generalizing s with
  | nil => rfl
  | cons a rest ih =>
      have hs := step_state_of_terminal a h
      have := ih (s := step s a) (by rw [hs]; exact h)
      simp only [runActs, List.foldl_cons] at *
      rw [this, hs]


theorem step_state_ne_initial {s : WorkerSt} (a : Act)
    (h : s.state ≠ State.Initial) : (step s a).state ≠ State.Initial := by
  cases a
  case unblock =>
    simp only [step, unblockWaiters]
    split <;> exact h
  case fireReady => exact h
  case observe ch => exact h
  case unobserve ch => exact h
  all_goals
    simp only [step, transition_state_eq]
    split
    · exact h
    · decide

theorem runActs_state_ne_initial {s : WorkerSt} (l : List Act)
    (h : s.state ≠ State.Initial) : (runActs s l).state ≠ State.Initial := by
  induction l generalizing s with
  | nil => exact h
  | cons a rest ih => exact ih (step_state_ne_initial a h)

theorem stopFromRunner_terminal {s : WorkerSt} (h : s.state ≠ State.Initial) :
    (step s Act.stopFromRunner).state = State.Stopped ∨
    (step s Act.stopFromRunner).state = State.Error := by
  simp only [step, transition_state_eq]
  rcases hs : s.state <;> simp [isStateOneOf, hs] at h ⊢

theorem step_counts_of_ne_unblock {s : WorkerSt} (a : Act) (h : a ≠ Act.unblock) :
    (step s a).doneCloseCount = s.doneCloseCount ∧
    (step s a).unlockOnceDone = s.unlockOnceDone := by
  cases a
  case unblock => exact absurd rfl h
  case fireReady => exact ⟨rfl, rfl⟩
  case observe ch => exact ⟨rfl, rfl⟩
  case unobserve ch => exact ⟨rfl, rfl⟩
  all_goals
    exact ⟨(transition_counts ..).1, (transition_counts ..).2.1⟩

theorem step_unlockOnceDone_mono {s : WorkerSt} (a : Act)
    (h : s.unlockOnceDone = true) : (step s a).unlockOnceDone = true := by
  by_cases ha : a = Act.unblock
  · subst ha
    simp only [step, unblockWaiters, if_pos h]
    exact h
  · rw [(step_counts_of_ne_unblock a ha).2]
    exact h

theorem runActs_unlockOnceDone_mono {s : WorkerSt} (l : List Act)
    (h : s.unlockOnceDone = true) : (runActs s l).unlockOnceDone = true := by
  induction l generalizing s with
  | nil => exact h
  | cons a rest ih => exact ih (step_unlockOnceDone_mono a h)

theorem unblockWaiters_unlockOnceDone (s : WorkerSt) :
    (unblockWaiters s).unlockOnceDone = true := by
  unfold unblockWaiters
  split <;> simp_all

theorem doneCloseCount_eq_one {s : WorkerSt} (h : OnceOk s)
    (hdone : s.unlockOnceDone = true) : s.doneCloseCount = 1 := by
  rw [h, if_pos hdone]

theorem runActs_append (s : WorkerSt) (l1 l2 : List Act) :
    runActs s (l1 ++ l2) = runActs (runActs s l1) l2 :=
  List.foldl_append ..


/-! ### Claim C1: done fires exactly once, final state terminal -/

/-- **C1.** For every sequence of invocations of the public operations, the
done signal is closed exactly once and the final state is terminal.  An
execution is any scheduling of the atomic actions of the racing operations
(start, shutdown, terminate, the signal watcher's shutdown/terminate, error
handling, work-runner completion): the trace opens with the successful
`transition(Starting, {Initial})` of the start call, `pre` is an arbitrary
interleaving of actions before the work runner's start hook returns,
`stopFromRunner` and the later `unblock` are the runner's final
`transition(Stopped, {Starting,Started,ShuttingDown,Terminating})` and its
deferred `unblockWaiters`, with arbitrary racing actions `mid` between them
and `post` after them.  At the end the machine state is `Stopped` or `Error`
and the done channel has been closed exactly once; moreover over every
schedule whatsoever (third conjunct) the done channel is never closed twice,
however terminate, shutdown completion and the work runner race. -/
theorem done_once_and_final_terminal (pre mid post : List Act) :
    ((runActs initWorkerSt
        (Act.startGate :: pre ++ Act.stopFromRunner :: mid ++ Act.unblock :: post)).state
          = State.Stopped ∨
     (runActs initWorkerSt
        (Act.startGate :: pre ++ Act.stopFromRunner :: mid ++ Act.unblock :: post)).state
          = State.Error) ∧
    (runActs initWorkerSt
        (Act.startGate :: pre ++ Act.stopFromRunner :: mid ++ Act.unblock :: post)).doneCloseCount
      = 1 ∧
    (∀ l : List Act, (runActs initWorkerSt l).doneCloseCount ≤ 1) := by
  have hsplit :
      Act.startGate :: pre ++ Act.stopFromRunner :: mid ++ Act.unblock :: post =
        (Act.startGate :: pre) ++
          ([Act.stopFromRunner] ++ ((mid ++ [Act.unblock]) ++ post)) := by
    simp
  rw [hsplit, runActs_append, runActs_append, runActs_append]
  set s1 : WorkerSt := runActs initWorkerSt (Act.startGate :: pre) with hs1
  have h1 : s1.state ≠ State.Initial := by
    rw [hs1]
    show (runActs (step initWorkerSt Act.startGate) pre).state ≠ State.Initial
    apply runActs_state_ne_initial
    decide
  set s2 : WorkerSt := runActs s1 [Act.stopFromRunner] with hs2
  have h2 : s2.state = State.Stopped ∨ s2.state = State.Error :=
    stopFromRunner_terminal h1
  set s3 : WorkerSt := runActs s2 (mid ++ [Act.unblock]) with hs3
  have h3 : s3.state = s2.state := by
    rw [hs3, runActs_append]
    have hmid := runActs_state_of_terminal mid h2
    have : (runActs s2 mid).state = State.Stopped ∨
        (runActs s2 mid).state = State.Error := by rw [hmid]; exact h2
    calc (runActs (runActs s2 mid) [Act.unblock]).state
        = (runActs s2 mid).state := by
          show (step (runActs s2 mid) Act.unblock).state = _
          simp only [step, unblockWaiters]
          split <;> rfl
      _ = s2.state := hmid
  have h3done : s3.unlockOnceDone = true := by
    rw [hs3, runActs_append]
    show (step (runActs s2 mid) Act.unblock).unlockOnceDone = true
    exact unblockWaiters_unlockOnceDone _
  have honce : OnceOk (runActs s3 post) := by
    apply onceOk_runActs
    rw [hs3, hs2, hs1]
    apply onceOk_runActs
    apply onceOk_runActs
    apply onceOk_runActs
    exact onceOk_init
  refine ⟨?_, ?_, ?_⟩
  · rw [runActs_state_of_terminal post (by rw [h3]; exact h2), h3]
    exact h2
  · exact doneCloseCount_eq_one honce (runActs_unlockOnceDone_mono post h3done)
  · intro l
    exact doneCloseCount_le_one (onceOk_runActs l onceOk_init)

/-! ### Claim C2: the allowed-source gate of `transition` -/

/-- **C2.** For every target state, every non-empty allowed-source list and
every current state not in the list, `transition` returns an error satisfying
`IsInvalidState` that names the attempted edge (current state and target) and
leaves the worker — state, observer registry, and send/close logs — entirely
unchanged, notifying no observer; when the current state is in the list the
transition succeeds and returns the previous state. -/
theorem transition_invalid_state_gate (s : WorkerSt) (ctx : Option Ctx)
    (toState : State) (allowed : List State) (cause : Option Err)
    (hne : allowed ≠ []) :
    (s.state ∉ allowed →
      transition s ctx toState allowed cause =
        (s, Except.error (Err.invalidState s.state toState)) ∧
      IsInvalidState (Err.invalidState s.state toState) = true) ∧
    (s.state ∈ allowed →
      (transition s ctx toState allowed cause).2 = Except.ok s.state) := by
  constructor
  · intro hmem
    have hfalse : isStateOneOf s allowed = false := by
      rw [← Bool.not_eq_true, isStateOneOf_iff]
      exact hmem
    exact ⟨transition_fail (List.length_pos.mpr hne) hfalse, rfl⟩
  · intro hmem
    have htrue : isStateOneOf s allowed = true := (isStateOneOf_iff s allowed).mpr hmem
    rw [transition_ok (by simp [htrue])]


theorem transition_invalid_state_gate_witness :
    (([State.Starting] : List State) ≠ []) ∧
    (transition { initWorkerSt with state := State.Stopped } none State.ShuttingDown
        [State.Starting] none =
      ({ initWorkerSt with state := State.Stopped },
        Except.error (Err.invalidState State.Stopped State.ShuttingDown))) :=
  ⟨by decide,
    ((transition_invalid_state_gate { initWorkerSt with state := State.Stopped }
        none State.ShuttingDown [State.Starting] none (by decide)).1 (by decide)).1⟩

/-! ### Claim C3: legal edges only, terminal states absorbing -/

/-- The legal edge set of the state diagram in state.go, as the specification
lists it (to be compared with the transitions the code performs). -/
def specLegalEdge : State → State → Bool
  | .Initial, .Starting => true
  | .Starting, .Started => true
  | .Starting, .ShuttingDown => true
  | .Starting, .Terminating => true
  | .Starting, .Stopped => true
  | .Starting, .Error => true
  | .Started, .ShuttingDown => true
  | .Started, .Terminating => true
  | .Started, .Stopped => true
  | .Started, .Error => true
  | .ShuttingDown, .Stopped => true
  | .ShuttingDown, .Terminating => true
  | .ShuttingDown, .Error => true
  | .Terminating, .Stopped => true
  | .Terminating, .Error => true
  | _, _ => false

/-- **C3.** Once the machine state is `Stopped` or `Error`, no atomic action
of any public operation (and hence no scheduling of them) changes the state
again, and every state change performed by a code action follows an edge of
the legal edge set. -/
theorem terminal_absorbing_and_legal_edges :
    (∀ (s : WorkerSt) (a : Act),
      s.state = State.Stopped ∨ s.state = State.Error → (step s a).state = s.state) ∧
    (∀ (s : WorkerSt) (l : List Act),
      s.state = State.Stopped ∨ s.state = State.Error → (runActs s l).state = s.state) ∧
    (∀ (s : WorkerSt) (a : Act),
      (step s a).state ≠ s.state → specLegalEdge s.state (step s a).state = true) := by
  refine ⟨fun s a h => step_state_of_terminal a h,
    fun s l h => runActs_state_of_terminal l h, fun s a hne => ?_⟩
  cases a
  case unblock =>
    simp only [step, unblockWaiters] at hne
    split at hne <;> exact absurd rfl hne
  case fireReady => exact absurd rfl hne
  case observe ch => exact absurd rfl hne
  case unobserve ch => exact absurd rfl hne
  all_goals
    simp only [step, transition_state_eq] at hne ⊢
    split at hne
    · exact absurd rfl hne
    · next hc =>
        rw [if_neg hc]
        rw [not_and_or] at hc
        rcases hc with hc | hc
        · exact absurd (by decide) hc
        · rw [Bool.not_eq_false, isStateOneOf_iff] at hc
          cases hsv : s.state <;> rw [hsv] at hc <;> revert hc <;> decide

theorem terminal_absorbing_and_legal_edges_witness :
    ({ initWorkerSt with state := State.Stopped } : WorkerSt).state = State.Stopped ∨
      ({ initWorkerSt with state := State.Stopped } : WorkerSt).state = State.Error :=
  Or.inl rfl

/-! ### Claim C4: observer delivery and terminal finalization -/

/-- **C4.** Every successful `transition` delivers the event built from the
previous state, the target state and the causing error to every registered
observer in registration order; when the causing error is non-nil or the
target is `Stopped` or `Error` it then closes every observer's channel and
empties the registry, and otherwise it leaves the registry unchanged and
closes no observer channel. -/
theorem transition_observer_delivery (s : WorkerSt) (ctx : Option Ctx)
    (toState : State) (allowed : List State) (cause : Option Err)
    (hsucc : allowed = [] ∨ s.state ∈ allowed) :
    ((transition s ctx toState allowed cause).1).sent =
      s.sent ++ s.observers.map
        (fun o => (o, { Context := none, Error := cause,
                        From := s.state, To := toState })) ∧
    (if cause.isSome || toState == State.Stopped || toState == State.Error then
      ((transition s ctx toState allowed cause).1).closed = s.closed ++ s.observers ∧
      ((transition s ctx toState allowed cause).1).observers = []
    else
      ((transition s ctx toState allowed cause).1).closed = s.closed ∧
      ((transition s ctx toState allowed cause).1).observers = s.observers) := by
  have hguard : ¬(0 < allowed.length ∧ isStateOneOf s allowed = false) := by
    rcases hsucc with h | h
    · subst h
      simp
    · intro hcon
      rw [← Bool.not_eq_true, isStateOneOf_iff] at hcon
      exact hcon.2 h
  rw [transition_ok hguard]
  refine ⟨rfl, ?_⟩
  split
  · exact ⟨rfl, rfl⟩
  · exact ⟨by simp, rfl⟩

theorem transition_observer_delivery_witness :
    (([] : List State) = [] ∨
      ({ initWorkerSt with observers := [7, 8] } : WorkerSt).state ∈ ([] : List State)) ∧
    ((transition { initWorkerSt with observers := [7, 8] } none State.Stopped [] none).1).sent =
      [(7, { Context := none, Error := none, From := State.Initial, To := State.Stopped }),
       (8, { Context := none, Error := none, From := State.Initial, To := State.Stopped })] :=
  ⟨Or.inl rfl,
    by
      rw [(transition_observer_delivery { initWorkerSt with observers := [7, 8] }
        none State.Stopped [] none (Or.inl rfl)).1]
      decide⟩


/-! ### The operation paths (worker.go), with hook outcomes as parameters -/

/-- `ContextHook` (hook.go): a context-aware hook returning an optional
error. -/
def ContextHook : Type := Ctx → Option Err

/-- `ErrorHook` (hook.go): receives an `Event` and transforms or suppresses
its error. -/
def ErrorHook : Type := Event → Option Err

theorem unblockWaiters_state (s : WorkerSt) :
    (unblockWaiters s).state = s.state := by
  unfold unblockWaiters
  split <;> rfl

theorem unblockWaiters_readyCloseCount (s : WorkerSt) :
    (unblockWaiters s).readyCloseCount = s.readyCloseCount := by
  unfold unblockWaiters
  split <;> rfl

/-- The error-filtering step of `Worker.handleError` (worker.go): when the
`Error` hook is configured it receives `Event{Context: ctx, Error: err,
From: c.State()}` (the `To` field stays at its zero value `Initial`) and its
result replaces the error; otherwise the error passes through unchanged. -/
def filterErr (filt : Option ErrorHook) (s : WorkerSt) (ctx : Ctx) (e : Err) :
    Option Err :=
  match filt with
  | none => some e
  | some f =>
      f { Context := some ctx, Error := some e, From := s.state, To := State.Initial }

/-- `Worker.handleError` (worker.go): nil errors are a no-op; the filter hook
may suppress the error (then nothing further happens); an unsuppressed
non-interrupted error drives `transition(Error, {Starting, Started,
ShuttingDown, Terminating})` with the error as cause and then
`unblockWaiters`; the (possibly transformed) error is returned. -/
def handleError (filt : Option ErrorHook) (s : WorkerSt) (ctx : Ctx)
    (err : Option Err) : WorkerSt × Option Err :=
  match err with
  | none => (s, none)
  | some e0 =>
      match filterErr filt s ctx e0 with
      | none => (s, none)
      | some e =>
          if IsInterrupted e then (s, some e)
          else
            (unblockWaiters (transition s (some ctx) State.Error
              [State.Starting, State.Started, State.ShuttingDown, State.Terminating]
              (some e)).1, some e)

/-- `Worker.TerminateCtx` (worker.go): `transition(Terminating, {Starting,
Started, ShuttingDown})`, returning the error verbatim on failure; then the
terminate hook (skipped when nil), whose non-nil error is routed through
`handleError` and returned; on success `transition(Stopped, {Terminating})`
and `unblockWaiters`.  The terminate hook's outcome is `terminateHook ctx`. -/
def TerminateCtx (filt : Option ErrorHook) (terminateHook : Option ContextHook)
    (s : WorkerSt) (ctx : Ctx) : WorkerSt × Option Err :=
  match transition s (some ctx) State.Terminating
      [State.Starting, State.Started, State.ShuttingDown] none with
  | (s1, Except.error e) => (s1, some e)
  | (s1, Except.ok _) =>
      match (match terminateHook with
             | none => none
             | some h => h ctx : Option Err) with
      | some e => handleError filt s1 ctx (some e)
      | none =>
          (unblockWaiters
            (transition s1 (some ctx) State.Stopped [State.Terminating] none).1,
           none)

/-- `Worker.ShutdownCtx` (worker.go): `transition(ShuttingDown, {Starting,
Started})`, returning the error verbatim on failure; then a context bounded
by `shutdownTimeout` is derived and the shutdown hook raced against its
expiry.  `timedOut = true` models the select picking `ctx.Done()` first
(escalation to `TerminateCtx` with the same bounded context, whose result is
returned); otherwise the hook's outcome is handled: a non-nil error goes
through `handleError` and is returned, else `transition(Stopped,
{ShuttingDown})` and a nil return. -/
def ShutdownCtx (filt : Option ErrorHook)
    (shutdownHook terminateHook : Option ContextHook) (shutdownTimeout : Nat)
    (s : WorkerSt) (ctx : Ctx) (timedOut : Bool) : WorkerSt × Option Err :=
  match transition s (some ctx) State.ShuttingDown
      [State.Starting, State.Started] none with
  | (s1, Except.error e) => (s1, some e)
  | (s1, Except.ok _) =>
      if timedOut then
        TerminateCtx filt terminateHook s1 (Ctx.withTimeout ctx shutdownTimeout)
      else
        match (match shutdownHook with
               | none => none
               | some h => h (Ctx.withTimeout ctx shutdownTimeout) : Option Err) with
        | some e => handleError filt s1 (Ctx.withTimeout ctx shutdownTimeout) (some e)
        | none =>
            ((transition s1 (some (Ctx.withTimeout ctx shutdownTimeout))
              State.Stopped [State.ShuttingDown] none).1, none)

/-- The synchronous control flow of `Worker.StartBackgroundCtx` (worker.go):
`transition(Starting, {Initial})`, returning the error verbatim on failure;
then the caller blocks on the local `ready` channel fed by the readiness
goroutine while the spawned work runner and signal watcher race with it —
`envA` is the interleaved atomic actions of those concurrent activities
during the wait and `readyOutcome` the value received (the probe's error, or
nil when the probe is absent, succeeds, or is interrupted by the done
signal).  A non-nil outcome is routed through `handleError` and returned;
otherwise `close(c.ready)` runs, further concurrent actions `envB` may
interleave, and `transition(Started, {Starting})` is attempted before
returning nil. -/
def StartBackgroundCtx (filt : Option ErrorHook) (s : WorkerSt) (ctx : Ctx)
    (envA : List Act) (readyOutcome : Option Err) (envB : List Act) :
    WorkerSt × Option Err :=
  match transition s (some ctx) State.Starting [State.Initial] none with
  | (s0, Except.error e) => (s0, some e)
  | (s0, Except.ok _) =>
      match readyOutcome with
      | some e => handleError filt (runActs s0 envA) ctx (some e)
      | none =>
          ((transition (runActs (closeReady (runActs s0 envA)) envB) (some ctx)
            State.Started [State.Starting] none).1, none)

/-! ### Claim C6: the error handler -/

/-- **C6.** `handleError` is a no-op returning nil on nil input; when the
configured error filter hook returns nil for the event carrying the error and
the current state, `handleError` returns nil, performs no Error transition
and does not fire done; when the (possibly filtered) error is non-nil and not
an Interrupted error, `handleError` performs `transition(Error, {Starting,
Started, ShuttingDown, Terminating})` with the error as cause followed by
`unblockWaiters` — so from any of those four states the machine ends in
`Error`, a terminal state is left untouched, the done signal is closed, and
the error is returned. -/
theorem handleError_spec :
    (∀ (filt : Option ErrorHook) (s : WorkerSt) (ctx : Ctx),
      handleError filt s ctx none = (s, none)) ∧
    (∀ (f : ErrorHook) (s : WorkerSt) (ctx : Ctx) (e : Err),
      f { Context := some ctx, Error := some e, From := s.state,
          To := State.Initial } = none →
      handleError (some f) s ctx (some e) = (s, none)) ∧
    (∀ (filt : Option ErrorHook) (s : WorkerSt) (ctx : Ctx) (e0 e : Err),
      filterErr filt s ctx e0 = some e → IsInterrupted e = false →
      handleError filt s ctx (some e0) =
        (unblockWaiters (transition s (some ctx) State.Error
          [State.Starting, State.Started, State.ShuttingDown, State.Terminating]
          (some e)).1, some e) ∧
      ((s.state = State.Starting ∨ s.state = State.Started ∨
          s.state = State.ShuttingDown ∨ s.state = State.Terminating) →
        (handleError filt s ctx (some e0)).1.state = State.Error) ∧
      ((s.state = State.Stopped ∨ s.state = State.Error) →
        (handleError filt s ctx (some e0)).1.state = s.state) ∧
      (handleError filt s ctx (some e0)).1.unlockOnceDone = true) := by
  refine ⟨fun filt s ctx => rfl, fun f s ctx e hf => ?_, ?_⟩
  · simp [handleError, filterErr, hf]
  · intro filt s ctx e0 e hfe hni
    have hmain : handleError filt s ctx (some e0) =
        (unblockWaiters (transition s (some ctx) State.Error
          [State.Starting, State.Started, State.ShuttingDown, State.Terminating]
          (some e)).1, some e) := by
      simp [handleError, hfe, hni]
    refine ⟨hmain, ?_, ?_, ?_⟩
    · intro hmem
      rw [hmain]
      show (unblockWaiters _).state = State.Error
      rw [unblockWaiters_state, transition_state_eq, if_neg]
      intro hcon
      rw [← Bool.not_eq_true, isStateOneOf_iff] at hcon
      rcases hmem with h | h | h | h <;> rw [h] at hcon <;> revert hcon <;> decide
    · intro hterm
      rw [hmain]
      show (unblockWaiters _).state = s.state
      rw [unblockWaiters_state, transition_state_eq, if_pos]
      refine ⟨by decide, ?_⟩
      rw [← Bool.not_eq_true, isStateOneOf_iff]
      rcases hterm with h | h <;> rw [h] <;> decide
    · rw [hmain]
      exact unblockWaiters_unlockOnceDone _

theorem handleError_spec_witness :
    filterErr none { initWorkerSt with state := State.Starting } Ctx.background
        (Err.hookErr 0) = some (Err.hookErr 0) ∧
    IsInterrupted (Err.hookErr 0) = false ∧
    (handleError none { initWorkerSt with state := State.Starting } Ctx.background
        (some (Err.hookErr 0))).1.state = State.Error :=
  ⟨rfl, rfl,
    (handleError_spec.2.2 none { initWorkerSt with state := State.Starting }
        Ctx.background (Err.hookErr 0) (Err.hookErr 0) rfl rfl).2.1 (Or.inl rfl)⟩


/-! ### Claim C7: shutdown-timeout escalation -/

/-- The start of the escalation scenario: a worker with one registered
observer is started (no readiness probe, work runner still blocked in the
start hook). -/
def escalationScenarioStart : WorkerSt × Option Err :=
  StartBackgroundCtx none (Observe initWorkerSt (some 0)) Ctx.background [] none []

/-- The escalation scenario continued: shutdown is requested and the bounded
context expires before the shutdown hook completes, with a nil terminate
hook. -/
def escalationScenario : WorkerSt × Option Err :=
  ShutdownCtx none (some (fun _ => none)) none 5 escalationScenarioStart.1
    Ctx.background true

/-- **C7.** When the shutdown-timeout context expires before the shutdown
hook completes, `ShutdownCtx` delegates to `TerminateCtx` on the same bounded
(expired) context and returns its result verbatim; consequently a shutdown
whose hook never returns within `shutdownTimeout` yields the observed event
sequence `[Starting, Started, ShuttingDown, Terminating, Stopped]`. -/
theorem shutdown_timeout_escalates :
    (∀ (filt : Option ErrorHook) (sh th : Option ContextHook) (tmo : Nat)
        (s : WorkerSt) (ctx : Ctx),
      isStateOneOf s [State.Starting, State.Started] = true →
      ShutdownCtx filt sh th tmo s ctx true =
        TerminateCtx filt th
          ((transition s (some ctx) State.ShuttingDown
            [State.Starting, State.Started] none).1)
          (Ctx.withTimeout ctx tmo)) ∧
    (escalationScenario.1.sent.map (fun p => p.2.To) =
        [State.Starting, State.Started, State.ShuttingDown, State.Terminating,
          State.Stopped] ∧
      escalationScenario.2 = none ∧
      escalationScenario.1.state = State.Stopped ∧
      escalationScenarioStart.2 = none) := by
  constructor
  · intro filt sh th tmo s ctx hstate
    have hguard : ¬(0 < ([State.Starting, State.Started] : List State).length ∧
        isStateOneOf s [State.Starting, State.Started] = false) := by
      simp [hstate]
    unfold ShutdownCtx
    rw [transition_ok hguard]
    rfl
  · exact ⟨by decide, by decide, by decide, by decide⟩

theorem shutdown_timeout_escalates_witness :
    isStateOneOf { initWorkerSt with state := State.Started }
        [State.Starting, State.Started] = true ∧
    ShutdownCtx none none none 3 { initWorkerSt with state := State.Started }
        Ctx.background true =
      TerminateCtx none none
        ((transition { initWorkerSt with state := State.Started }
          (some Ctx.background) State.ShuttingDown
          [State.Starting, State.Started] none).1)
        (Ctx.withTimeout Ctx.background 3) :=
  ⟨by decide,
    shutdown_timeout_escalates.1 none none none 3
      { initWorkerSt with state := State.Started } Ctx.background (by decide)⟩

/-! ### Claim C8: a filtered shutdown-hook error parks the machine -/

/-- **C8.** When the shutdown hook returns a non-nil error before the timeout
and the error filter hook maps it to nil, `ShutdownCtx` returns nil without
performing the transition to `Stopped`: the machine stays in
`ShuttingDown`. -/
theorem shutdown_filtered_error_parks (f : Event → Option Err)
    (h : Ctx → Option Err) (th : Option ContextHook) (tmo : Nat) (s : WorkerSt)
    (ctx : Ctx) (e : Err)
    (hstate : isStateOneOf s [State.Starting, State.Started] = true)
    (hhook : h (Ctx.withTimeout ctx tmo) = some e)
    (hfilt : f { Context := some (Ctx.withTimeout ctx tmo), Error := some e,
                 From := State.ShuttingDown, To := State.Initial } = none) :
    ShutdownCtx (some f) (some h) th tmo s ctx false =
      ((transition s (some ctx) State.ShuttingDown
        [State.Starting, State.Started] none).1, none) ∧
    (ShutdownCtx (some f) (some h) th tmo s ctx false).1.state =
      State.ShuttingDown := by
  have hguard : ¬(0 < ([State.Starting, State.Started] : List State).length ∧
      isStateOneOf s [State.Starting, State.Started] = false) := by
    simp [hstate]
  have hmain : ShutdownCtx (some f) (some h) th tmo s ctx false =
      ((transition s (some ctx) State.ShuttingDown
        [State.Starting, State.Started] none).1, none) := by
    unfold ShutdownCtx
    rw [transition_ok hguard]
    simp [hhook, handleError, filterErr, hfilt]
  refine ⟨hmain, ?_⟩
  rw [hmain, transition_ok hguard]

theorem shutdown_filtered_error_parks_witness :
    isStateOneOf { initWorkerSt with state := State.Started }
        [State.Starting, State.Started] = true ∧
    (ShutdownCtx (some (fun _ => none)) (some (fun _ => some (Err.hookErr 1)))
        none 3 { initWorkerSt with state := State.Started } Ctx.background
        false).1.state = State.ShuttingDown :=
  ⟨by decide,
    (shutdown_filtered_error_parks (fun _ => none)
        (fun _ => some (Err.hookErr 1)) none 3
        { initWorkerSt with state := State.Started } Ctx.background
        (Err.hookErr 1) (by decide) rfl rfl).2⟩


/-! ### Claim C5: the ready signal -/

theorem step_readyCloseCount {s : WorkerSt} (a : Act) (h : a ≠ Act.fireReady) :
    (step s a).readyCloseCount = s.readyCloseCount := by
  cases a
  case fireReady => exact absurd rfl h
  case unblock => exact unblockWaiters_readyCloseCount s
  case observe ch => rfl
  case unobserve ch => rfl
  all_goals exact (transition_counts ..).2.2

theorem runActs_readyCloseCount {s : WorkerSt} {l : List Act}
    (h : Act.fireReady ∉ l) :
    (runActs s l).readyCloseCount = s.readyCloseCount := by
  induction l generalizing s with
  | nil => rfl
  | cons a rest ih =>
      have ha : a ≠ Act.fireReady := fun hc => h (hc ▸ List.mem_cons_self a rest)
      have hrest : Act.fireReady ∉ rest := fun hc => h (List.mem_cons_of_mem a hc)
      show (runActs (step s a) rest).readyCloseCount = s.readyCloseCount
      rw [ih hrest, step_readyCloseCount a ha]

theorem handleError_readyCloseCount (filt : Option ErrorHook) (s : WorkerSt)
    (ctx : Ctx) (err : Option Err) :
    (handleError filt s ctx err).1.readyCloseCount = s.readyCloseCount := by
  cases err with
  | none => rfl
  | some e0 =>
      simp only [handleError]
      cases hfe : filterErr filt s ctx e0 with
      | none => rfl
      | some e =>
          by_cases hi : IsInterrupted e = true
          · simp [hi]
          · rw [Bool.not_eq_true] at hi
            simp only [hi, Bool.false_eq_true, if_false]
            rw [unblockWaiters_readyCloseCount,
              (transition_counts s (some ctx) State.Error
                [State.Starting, State.Started, State.ShuttingDown, State.Terminating]
                (some e)).2.2]

/-- **C5 (amended).** In every execution of the start path the ready signal
is closed at most once, and only by the invocation that wins the
`Initial→Starting` gate: (1) the winning invocation with a nil readiness
outcome closes ready exactly once, provided no concurrently scheduled action
is the ready close itself (the source contains a single `close(c.ready)`
statement); (2) the winning invocation with an error readiness outcome never
closes ready; (3) a start invocation finding the machine out of `Initial`
fails the gate, leaves the worker untouched and returns the Invalid-State
error, so it never reaches the close; (4) no atomic action ever returns the
machine to `Initial`, so at most one invocation ever wins the gate.  The
close in (1) is unconditional on the machine state at that point: it is not
tied to the success of the subsequent `Starting→Started` transition (see the
counterexample theorem, where ready closes after the machine has entered
`Error` through the start path). -/
theorem ready_close_single_gated :
    (∀ (filt : Option ErrorHook) (s : WorkerSt) (ctx : Ctx) (envA envB : List Act),
      Act.fireReady ∉ envA → Act.fireReady ∉ envB → s.state = State.Initial →
      (StartBackgroundCtx filt s ctx envA none envB).1.readyCloseCount =
        s.readyCloseCount + 1) ∧
    (∀ (filt : Option ErrorHook) (s : WorkerSt) (ctx : Ctx) (envA envB : List Act)
        (e : Err),
      Act.fireReady ∉ envA → s.state = State.Initial →
      (StartBackgroundCtx filt s ctx envA (some e) envB).1.readyCloseCount =
        s.readyCloseCount) ∧
    (∀ (filt : Option ErrorHook) (s : WorkerSt) (ctx : Ctx) (envA : List Act)
        (ro : Option Err) (envB : List Act),
      s.state ≠ State.Initial →
      StartBackgroundCtx filt s ctx envA ro envB =
        (s, some (Err.invalidState s.state State.Starting))) ∧
    (∀ (s : WorkerSt) (a : Act), s.state ≠ State.Initial →
      (step s a).state ≠ State.Initial) := by
  have hgate : ∀ s : WorkerSt, s.state = State.Initial →
      ¬(0 < ([State.Initial] : List State).length ∧
        isStateOneOf s [State.Initial] = false) := by
    intro s hs hcon
    rw [← Bool.not_eq_true, isStateOneOf_iff] at hcon
    exact hcon.2 (by rw [hs]; exact List.mem_singleton_self _)
  refine ⟨?_, ?_, ?_, fun s a h => step_state_ne_initial a h⟩
  · intro filt s ctx envA envB hA hB hs
    unfold StartBackgroundCtx
    rw [transition_ok (hgate s hs)]
    show ((transition (runActs (closeReady (runActs _ envA)) envB) (some ctx)
      State.Started [State.Starting] none).1).readyCloseCount = s.readyCloseCount + 1
    rw [(transition_counts ..).2.2, runActs_readyCloseCount hB]
    show (runActs _ envA).readyCloseCount + 1 = s.readyCloseCount + 1
    rw [runActs_readyCloseCount hA]
  · intro filt s ctx envA envB e hA hs
    unfold StartBackgroundCtx
    rw [transition_ok (hgate s hs)]
    show (handleError filt (runActs _ envA) ctx (some e)).1.readyCloseCount =
      s.readyCloseCount
    rw [handleError_readyCloseCount, runActs_readyCloseCount hA]
  · intro filt s ctx envA ro envB hs
    have hfail : isStateOneOf s [State.Initial] = false := by
      rw [← Bool.not_eq_true, isStateOneOf_iff]
      intro hc
      exact hs (List.mem_singleton.mp hc)
    unfold StartBackgroundCtx
    rw [transition_fail (by decide) hfail]

theorem ready_close_single_gated_witness :
    (Act.fireReady ∉ ([] : List Act)) ∧ initWorkerSt.state = State.Initial ∧
    (StartBackgroundCtx none initWorkerSt Ctx.background [] none
        []).1.readyCloseCount = initWorkerSt.readyCloseCount + 1 :=
  ⟨by decide, rfl,
    ready_close_single_gated.1 none initWorkerSt Ctx.background [] []
      (by decide) (by decide) rfl⟩

/-- **C5 (counterexample).** A real schedule of the start path: no readiness
probe is configured (so the readiness outcome is nil), and before the caller
is released the work runner's start hook fails, `handleError` drives the
machine to `Error` and fires done.  The caller then still executes
`close(c.ready)` — the ready channel is closed (count 1) although no
`Starting→Started` transition ever succeeded and the machine already entered
`Error` through the start path, refuting the claim as stated. -/
theorem ready_closed_after_error_counterexample :
    (StartBackgroundCtx none initWorkerSt Ctx.background
        [Act.errorTr (Err.hookErr 0), Act.unblock] none
        [Act.stopFromRunner, Act.unblock]).1.readyCloseCount = 1 ∧
    (StartBackgroundCtx none initWorkerSt Ctx.background
        [Act.errorTr (Err.hookErr 0), Act.unblock] none
        [Act.stopFromRunner, Act.unblock]).1.state = State.Error ∧
    (StartBackgroundCtx none initWorkerSt Ctx.background
        [Act.errorTr (Err.hookErr 0), Act.unblock] none
        [Act.stopFromRunner, Act.unblock]).2 = none := by
  refine ⟨by decide, by decide, by decide⟩


/-! ### Construction (worker.go): `NewWorker`, `NewWorkerWithOptions` -/

/-- `Hooks` (worker.go).  A nil Go function field is `none`. -/
structure Hooks where
  Name : String
  Start : Option ContextHook
  Shutdown : Option ContextHook
  Terminate : Option ContextHook
  Error : Option ErrorHook

/-- A readiness probe (`func() <-chan error` in worker.go), modelled by its
eventual outcome: `some e` when the returned channel yields the error `e`,
`none` when it is closed without a value. -/
def ReadinessProbeModel : Type := Option Err

/-- `ServiceOptions` (worker.go).  `ShutdownTimeout` is in nanoseconds
(`time.Duration`); `Signals` distinguishes a nil slice (`none`) from a
non-nil one, since only a nil slice is replaced by the default; `Logger`
keeps only nil-ness. -/
structure ServiceOptions where
  ReadinessProbe : Option ReadinessProbeModel
  ShutdownTimeout : Nat
  Signals : Option (List Nat)
  SignalAction : Action
  Logger : Option Unit

/-- The zero value `ServiceOptions{}` used when the caller passes nil
options. -/
def emptyServiceOptions : ServiceOptions :=
  { ReadinessProbe := none
    ShutdownTimeout := 0
    Signals := none
    SignalAction := Action.Undefined
    Logger := none }

/-- `time.Second` in nanoseconds. -/
def timeSecond : Nat := 1000000000

/-- `syscall.SIGINT`. -/
def SIGINT : Nat := 2

/-- `syscall.SIGTERM`. -/
def SIGTERM : Nat := 15

/-- The `Worker` struct (worker.go): the defensively copied hooks and
options plus the lock-protected dynamic state. -/
structure Worker where
  hooks : Hooks
  opts : ServiceOptions
  st : WorkerSt

/-- `NewWorkerWithOptions` (worker.go): nil result exactly when the hook
structure, the Start hook or the Shutdown hook is nil; otherwise the hooks
and options are copied, a nil options pointer is replaced by the zero value,
nil `Signals` defaults to SIGINT+SIGTERM, zero `ShutdownTimeout` defaults to
15 seconds, `Undefined` `SignalAction` defaults to `Shutdown`, and the worker
starts in `Initial` with fresh ready and done channels. -/
def NewWorkerWithOptions (hooks : Option Hooks) (opts : Option ServiceOptions) :
    Option Worker :=
  match hooks with
  | none => none
  | some h =>
      if h.Start.isNone || h.Shutdown.isNone then none
      else
        let o := match opts with
          | none => emptyServiceOptions
          | some o0 => o0
        let o1 := { o with
          Signals := match o.Signals with
            | none => some [SIGINT, SIGTERM]
            | some sigs => some sigs }
        let o2 := { o1 with
          ShutdownTimeout :=
            if o1.ShutdownTimeout = 0 then 15 * timeSecond else o1.ShutdownTimeout }
        let o3 := { o2 with
          SignalAction :=
            if o2.SignalAction = Action.Undefined then Action.Shutdown
            else o2.SignalAction }
        some { hooks := h, opts := o3, st := initWorkerSt }

/-- `NewWorker` (worker.go): `NewWorkerWithOptions(hooks, nil)`. -/
def NewWorker (hooks : Option Hooks) : Option Worker :=
  NewWorkerWithOptions hooks none

/-! ### Claim C9: construction defaults -/

/-- A concrete hook set with the required Start and Shutdown hooks present,
used as sample input. -/
def sampleHooks : Hooks :=
  { Name := "w"
    Start := some (fun _ => none)
    Shutdown := some (fun _ => none)
    Terminate := none
    Error := none }

/-- **C9.** For every hook set with non-nil Start and Shutdown hooks,
construction yields a worker in state `Initial` whose hooks are a copy of the
given ones; options left unset take the defaults (`shutdownTimeout` 15s,
`signals` SIGINT+SIGTERM, `signalAction` `Shutdown`) — both when no options
are supplied and field by field when an options structure is supplied — and
caller-supplied non-zero values are kept. -/
theorem construction_defaults (h : Hooks) (hstart : h.Start.isSome = true)
    (hshut : h.Shutdown.isSome = true) :
    (∃ w : Worker, NewWorkerWithOptions (some h) none = some w ∧
      w.st = initWorkerSt ∧ w.st.state = State.Initial ∧ w.hooks = h ∧
      w.opts.ShutdownTimeout = 15 * timeSecond ∧
      w.opts.Signals = some [SIGINT, SIGTERM] ∧
      w.opts.SignalAction = Action.Shutdown) ∧
    (∀ o : ServiceOptions, ∃ w : Worker,
      NewWorkerWithOptions (some h) (some o) = some w ∧
      w.st = initWorkerSt ∧ w.st.state = State.Initial ∧ w.hooks = h ∧
      w.opts.ReadinessProbe = o.ReadinessProbe ∧
      w.opts.Logger = o.Logger ∧
      w.opts.ShutdownTimeout =
        (if o.ShutdownTimeout = 0 then 15 * timeSecond else o.ShutdownTimeout) ∧
      w.opts.Signals =
        (match o.Signals with
          | none => some [SIGINT, SIGTERM]
          | some sigs => some sigs) ∧
      w.opts.SignalAction =
        (if o.SignalAction = Action.Undefined then Action.Shutdown
          else o.SignalAction)) := by
  have h1 : h.Start.isNone = false := by
    cases hh : h.Start with
    | none => exact absurd hstart (by rw [hh]; simp)
    | some v => rfl
  have h2 : h.Shutdown.isNone = false := by
    cases hh : h.Shutdown with
    | none => exact absurd hshut (by rw [hh]; simp)
    | some v => rfl
  constructor
  · have hmk : NewWorkerWithOptions (some h) none =
        some { hooks := h
               opts := { ReadinessProbe := none
                         ShutdownTimeout := 15 * timeSecond
                         Signals := some [SIGINT, SIGTERM]
                         SignalAction := Action.Shutdown
                         Logger := none }
               st := initWorkerSt } := by
      simp only [NewWorkerWithOptions, h1, h2, Bool.or_self, Bool.false_eq_true,
        if_false]
      rfl
    exact ⟨_, hmk, rfl, rfl, rfl, rfl, rfl, rfl⟩
  · intro o
    have hmk : NewWorkerWithOptions (some h) (some o) =
        some { hooks := h
               opts := { ReadinessProbe := o.ReadinessProbe
                         ShutdownTimeout :=
                           if o.ShutdownTimeout = 0 then 15 * timeSecond
                           else o.ShutdownTimeout
                         Signals :=
                           match o.Signals with
                           | none => some [SIGINT, SIGTERM]
                           | some sigs => some sigs
                         SignalAction :=
                           if o.SignalAction = Action.Undefined then Action.Shutdown
                           else o.SignalAction
                         Logger := o.Logger }
               st := initWorkerSt } := by
      simp only [NewWorkerWithOptions, h1, h2, Bool.or_self, Bool.false_eq_true,
        if_false]
    exact ⟨_, hmk, rfl, rfl, rfl, rfl, rfl, rfl, rfl, rfl⟩

theorem construction_defaults_witness :
    sampleHooks.Start.isSome = true ∧
    ∃ w : Worker,
      NewWorkerWithOptions (some sampleHooks) none = some w ∧
        w.st = initWorkerSt ∧ w.st.state = State.Initial ∧
        w.hooks = sampleHooks ∧
        w.opts.ShutdownTimeout = 15 * timeSecond ∧
        w.opts.Signals = some [SIGINT, SIGTERM] ∧
        w.opts.SignalAction = Action.Shutdown :=
  ⟨rfl, (construction_defaults sampleHooks rfl rfl).1⟩

/-! ### Claim C10: nil result exactly on missing required hooks -/

/-- **C10.** `NewWorkerWithOptions` (and `NewWorker`, which is the same with
nil options) returns nil exactly when the hook structure is nil, its Start
hook is nil, or its Shutdown hook is nil; a nil Terminate hook or nil options
never cause a nil result. -/
theorem construction_nil_iff (hs : Option Hooks) (opts : Option ServiceOptions) :
    (NewWorkerWithOptions hs opts = none ↔
      hs = none ∨ ∃ h : Hooks, hs = some h ∧
        (h.Start = none ∨ h.Shutdown = none)) ∧
    NewWorker hs = NewWorkerWithOptions hs none := by
  refine ⟨?_, rfl⟩
  cases hs with
  | none => simp [NewWorkerWithOptions]
  | some h =>
      simp only [NewWorkerWithOptions, Option.some.injEq, reduceCtorEq,
        false_or]
      by_cases hb1 : h.Start.isNone <;> by_cases hb2 : h.Shutdown.isNone <;>
        simp_all [Option.isNone_iff_eq_none]

end Lifecycle
